import Mathlib

/-!
Verification of the Whether agents serverless application.

This file shallowly embeds the arithmetic and control flow of the Python
handlers (`market_resolver/app.py`, `agent_orchestrator/app.py`,
`leaderboard_updater/app.py`, `position_executor/app.py`) and of the shared
data layer (`layers/common/common/dynamodb.py`).  Decimal and float
quantities are modelled as exact rationals, enum values and identifiers as
the strings the source compares, and the key-value store as explicit lists
threaded through the step functions.
-/

namespace Whether

/-- Position lifecycle states, from `PositionStatus` in `common/dynamodb.py`
("pending" / "open" / "closed" / "cancelled"); `opened` models "open". -/
inductive PositionStatus where
  | pending
  | opened
  | closed
  | cancelled
deriving DecidableEq

/-- Agent lifecycle states, from `AgentStatus` in `common/dynamodb.py`. -/
inductive AgentStatus where
  | pending
  | active
  | paused
  | stopped
deriving DecidableEq

/-- The `.value` string of an `AgentStatus` member, as compared by
`process_position_message` (`agent.status.value != "active"`). -/
def AgentStatus.value : AgentStatus → String
  | .pending => "pending"
  | .active => "active"
  | .paused => "paused"
  | .stopped => "stopped"

/-- Position data model (`Position` dataclass in `common/dynamodb.py`). -/
structure Position where
  positionId : String
  agentId : String
  marketId : String
  direction : String
  size : ℚ
  entryPrice : ℚ
  status : PositionStatus
  exitPrice : Option ℚ := none
  pnl : Option ℚ := none
  predictionId : Option String := none
deriving DecidableEq

/-- Embeds `Position.create` from `common/dynamodb.py`: a fresh position starts in
status PENDING with no exit price and no PnL. -/
def Position.create (positionId agentId marketId direction : String)
    (size entryPrice : ℚ) (predictionId : Option String) : Position :=
  { positionId := positionId
    agentId := agentId
    marketId := marketId
    direction := direction
    size := size
    entryPrice := entryPrice
    status := .pending
    predictionId := predictionId }

/-- Agent data model (`Agent` dataclass in `common/dynamodb.py`), restricted
to the fields the handlers under verification read. -/
structure Agent where
  agentId : String
  status : AgentStatus
  totalTrades : ℕ
  winningTrades : ℕ
  totalPnl : ℚ
deriving DecidableEq

/-- Prediction data model (`Prediction` dataclass in `common/dynamodb.py`),
restricted to the fields the handlers under verification read. -/
structure Prediction where
  predictionId : String
  agentId : String
  marketId : String
  predictedProbability : ℚ
  marketProbability : ℚ
  confidence : String
  edge : ℚ
  recommendedDirection : String
  wasCorrect : Option Bool := none
deriving DecidableEq

/-- Market data model (`Market` dataclass in `common/whether_api.py`),
restricted to the fields the handlers under verification read.  The
resolution time is an epoch timestamp in seconds. -/
structure Market where
  id : String
  type : String
  location : String
  yesPrice : ℚ
  noPrice : ℚ
  resolutionTime : ℤ
  outcome : Option String := none
deriving DecidableEq

/-! ### Market resolver: `resolve_position` (`market_resolver/app.py`) -/

/-- The `won` test of `resolve_position`: the position won exactly when it
held YES on a YES outcome or NO on a NO outcome. -/
def wonPosition (direction outcome : String) : Bool :=
  (direction == "YES" && outcome == "YES") || (direction == "NO" && outcome == "NO")

/-- Core of `resolve_position` (`market_resolver/app.py`): close the position
with exit price 1 and PnL `size * (1 - entry)` on a win, exit price 0 and
PnL `-size * entry` on a loss. -/
def resolve_position (p : Position) (outcome : String) : Position :=
  let won := wonPosition p.direction outcome
  let pnl : ℚ := if won then p.size * (1 - p.entryPrice) else -p.size * p.entryPrice
  let exitPrice : ℚ := if won then 1 else 0
  { p with status := .closed, exitPrice := some exitPrice, pnl := some pnl }

/-! ### Orchestrator: `calculate_position_size` (`agent_orchestrator/app.py`) -/

/-- Position-sizing part of a strategy document (`positionSizing` object). -/
structure PositionSizing where
  baseSize : ℚ := 5/100
  scalingRule : String := "fixed"
deriving DecidableEq

/-- Risk-control part of a strategy document (`riskControls` object). -/
structure RiskControls where
  minConfidence : String := "medium"
  minEdge : ℚ := 5/100
  maxPositionSize : ℚ := 20/100
deriving DecidableEq

/-- Market-selection part of a strategy document (`marketSelection` object). -/
structure MarketSelection where
  types : List String := []
  locations : List String := []
  timeHorizon : List String := []
deriving DecidableEq

/-- An entry condition's comparison value may be a number or a string
(`condition.get("value")` in `evaluate_entry_condition`). -/
inductive CondValue where
  | num (q : ℚ)
  | str (s : String)
deriving DecidableEq

/-- One entry condition of a strategy document. -/
structure EntryCondition where
  field : String
  operator : String
  value : CondValue
deriving DecidableEq

/-- A synthesized strategy document, restricted to the fields the
orchestrator reads. -/
structure Strategy where
  marketSelection : MarketSelection := {}
  entryConditions : List EntryCondition := []
  positionDirection : String := "dynamic"
  positionSizing : PositionSizing := {}
  riskControls : RiskControls := {}
deriving DecidableEq

/-- The confidence multiplier dictionary of `calculate_position_size`, with
its `.get` default of 1.0 for unknown confidence strings. -/
def confidenceMultiplier (confidence : String) : ℚ :=
  if confidence == "low" then 1/2
  else if confidence == "medium" then 1
  else if confidence == "high" then 3/2
  else if confidence == "very_high" then 2
  else 1

/-- Embeds `calculate_position_size` (`agent_orchestrator/app.py`): apply the
strategy's scaling rule to the base size, then clamp to the configured
maximum with `min(size, max_position)`. -/
def calculate_position_size (prediction : Prediction) (strategy : Strategy) : ℚ :=
  let base_size := strategy.positionSizing.baseSize
  let scaling_rule := strategy.positionSizing.scalingRule
  let max_position := strategy.riskControls.maxPositionSize
  let size :=
    if scaling_rule == "confidence_scaled" then
      base_size * confidenceMultiplier prediction.confidence
    else if scaling_rule == "edge_scaled" then
      base_size * min (prediction.edge * 10) 2
    else if scaling_rule == "kelly" then
      let p := prediction.predictedProbability
      let q := 1 - p
      base_size * max 0 (p - q) * (1/2)
    else
      base_size
  min size max_position

/-! ### Orchestrator: `filter_markets_for_strategy` (`agent_orchestrator/app.py`) -/

/-- Embeds `(market.resolution_time - now).total_seconds() / 3600` in
`filter_markets_for_strategy`, with times as epoch seconds. -/
def hoursUntilResolution (now : ℤ) (m : Market) : ℚ :=
  ((m.resolutionTime - now : ℤ) : ℚ) / 3600

/-- The time-horizon test of `filter_markets_for_strategy`: when the
strategy lists no horizons the test is skipped, otherwise the if/elif
chain keeps the market when some selected bucket contains its hours until
resolution and drops it otherwise. -/
def timeHorizonOk (horizons : List String) (hours : ℚ) : Bool :=
  if horizons.isEmpty then true
  else if horizons.contains "same_day" && decide (hours ≤ 24) then true
  else if horizons.contains "next_day" && decide (24 < hours) && decide (hours ≤ 48) then true
  else if horizons.contains "weekly" && decide (48 < hours) && decide (hours ≤ 168) then true
  else false

/-- The per-market body of `filter_markets_for_strategy`'s loop: the three
continue-guards on type, location and time horizon, rendered as a
conjunction. -/
def marketMatchesStrategy (now : ℤ) (sel : MarketSelection) (m : Market) : Bool :=
  (sel.types.isEmpty || sel.types.contains m.type)
    && (sel.locations.isEmpty || sel.locations.contains m.location)
    && timeHorizonOk sel.timeHorizon (hoursUntilResolution now m)

/-- Embeds `filter_markets_for_strategy` (`agent_orchestrator/app.py`). -/
def filter_markets_for_strategy (now : ℤ) (markets : List Market)
    (sel : MarketSelection) : List Market :=
  markets.filter (marketMatchesStrategy now sel)

/-! ### Orchestrator: `evaluate_entry_condition` (`agent_orchestrator/app.py`) -/

/-- The `CONFIDENCE_ORDER` dictionary of `agent_orchestrator/app.py`. -/
def CONFIDENCE_ORDER (c : String) : Option ℕ :=
  if c == "low" then some 0
  else if c == "medium" then some 1
  else if c == "high" then some 2
  else if c == "very_high" then some 3
  else none

/-- Embeds `CONFIDENCE_ORDER.get(c, d)`. -/
def confidenceOrderD (c : String) (d : ℕ) : ℕ :=
  (CONFIDENCE_ORDER c).getD d

/-- Embeds `evaluate_entry_condition` (`agent_orchestrator/app.py`).  The field
dispatch resolves the actual value (and, for the confidence field, maps a
string comparison value through `CONFIDENCE_ORDER`); an unrecognized field
returns True before any comparison.  The operator dispatch compares; an
unrecognized operator returns True.  Comparing a number with a leftover
string value would raise a TypeError in Python for the four ordering
operators (modelled as `none`), while Python's `==` on mismatched types is
False. -/
def evaluate_entry_condition (condition : EntryCondition) (prediction : Prediction) :
    Option Bool :=
  let resolved : Option (ℚ × CondValue) :=
    if condition.field == "edge" then
      some (prediction.edge, condition.value)
    else if condition.field == "confidence" then
      some ((confidenceOrderD prediction.confidence 0 : ℕ),
        match condition.value with
        | .str s => .num (confidenceOrderD s 1 : ℕ)
        | v => v)
    else if condition.field == "market_probability" then
      some (prediction.marketProbability * 100, condition.value)
    else if condition.field == "forecast_probability" then
      some (prediction.predictedProbability * 100, condition.value)
    else
      none
  match resolved with
  | none => some true
  | some (actual, value) =>
    if condition.operator == "gt" then
      match value with
      | .num q => some (decide (actual > q))
      | .str _ => none
    else if condition.operator == "lt" then
      match value with
      | .num q => some (decide (actual < q))
      | .str _ => none
    else if condition.operator == "gte" then
      match value with
      | .num q => some (decide (actual ≥ q))
      | .str _ => none
    else if condition.operator == "lte" then
      match value with
      | .num q => some (decide (actual ≤ q))
      | .str _ => none
    else if condition.operator == "eq" then
      match value with
      | .num q => some (decide (actual = q))
      | .str _ => some false
    else
      some true

/-! ### Orchestrator: `queue_position`, and the position executor
(`agent_orchestrator/app.py`, `position_executor/app.py`) -/

/-- An execution-queue message, with the fields `queue_position` serializes
(`agent_orchestrator/app.py`). -/
structure QueueMessage where
  agentId : String
  marketId : String
  direction : String
  size : ℚ
  entryPrice : ℚ
  predictionId : String
deriving DecidableEq

/-- The store state touched by queuing: the persisted position records and
the execution queue. -/
structure SystemState where
  positions : List Position
  queue : List QueueMessage
deriving DecidableEq

/-- Embeds `queue_position` (`agent_orchestrator/app.py`): compute the size,
choose the direction (the strategy's fixed YES/NO overrides the
prediction's recommendation), and send one message to the execution queue.
No position record is written. -/
def queue_position (st : SystemState) (agent : Agent) (market : Market)
    (prediction : Prediction) (strategy : Strategy) : SystemState :=
  let size := calculate_position_size prediction strategy
  let direction :=
    if strategy.positionDirection == "YES" || strategy.positionDirection == "NO" then
      strategy.positionDirection
    else
      prediction.recommendedDirection
  let entryPrice := if direction == "YES" then market.yesPrice else market.noPrice
  { st with
    queue := st.queue ++
      [{ agentId := agent.agentId
         marketId := market.id
         direction := direction
         size := size
         entryPrice := entryPrice
         predictionId := prediction.predictionId }] }

/-- Outcome of `process_position_message` (`position_executor/app.py`).
Only `executed` registers a paper position with the market API and persists
a position record; the two skip outcomes return without doing either, and
`apiError` models the re-raised exception when the market API call or the
store write fails. -/
inductive ExecResult where
  | skippedMissingAgent
  | skippedInactiveAgent
  | executed (p : Position)
  | apiError
deriving DecidableEq

/-- Embeds `process_position_message` (`position_executor/app.py`): look up the
owning agent; return silently if it is missing or not active; otherwise
create the paper position, build the record with `Position.create`, set its
status to OPEN and persist it.  `apiOk` stands for the success of the
market-API call and store write; `newPositionId` stands for the generated
UUID. -/
def process_position_message (agents : List Agent) (apiOk : Bool)
    (newPositionId : String) (msg : QueueMessage) : ExecResult :=
  match agents.find? (fun a => a.agentId == msg.agentId) with
  | none => .skippedMissingAgent
  | some agent =>
    if agent.status.value != "active" then .skippedInactiveAgent
    else if !apiOk then .apiError
    else
      let position := Position.create newPositionId msg.agentId msg.marketId
        msg.direction msg.size msg.entryPrice (some msg.predictionId)
      .executed { position with status := .opened }

/-- One SQS record of the executor's batch: its message id, whether
`json.loads` of the body succeeds, and the parsed body when it does. -/
structure SQSRecord where
  messageId : String
  bodyOk : Bool
  msg : QueueMessage
deriving DecidableEq

/-- Whether processing one record raises: a malformed body raises in
`json.loads`, and `process_position_message` re-raises exactly on the
market-API/store failure path. -/
def recordRaises (agents : List Agent) (apiOk : Bool) (newPositionId : String)
    (r : SQSRecord) : Bool :=
  !r.bodyOk ||
    (match process_position_message agents apiOk newPositionId r.msg with
     | .apiError => true
     | _ => false)

/-- The batch loop of the executor's `lambda_handler`
(`position_executor/app.py`): process each record in its own try, and on an
exception append the record's message id to `batchItemFailures`. -/
def executor_lambda_handler (agents : List Agent) (apiOk : Bool)
    (newPositionId : String) (records : List SQSRecord) : List String :=
  records.foldl
    (fun failures r =>
      if recordRaises agents apiOk newPositionId r then failures ++ [r.messageId]
      else failures)
    []

/-! ### Orchestrator: the per-market prediction loop of `process_agent`
(`agent_orchestrator/app.py`) with the prediction store of
`common/dynamodb.py` -/

/-- A stored prediction record of one agent, reduced to the fields the
freshness check reads: its market and its creation time (epoch seconds).
The store lists an agent's records most recent first (the query runs with
`ScanIndexForward=False` over `PREDICTION#createdAt` sort keys). -/
structure PredRec where
  marketId : String
  createdAt : ℤ
deriving DecidableEq

/-- Embeds `DynamoDBClient.get_predictions_by_agent` for a fixed agent: the query
returns at most `limit` records, newest first. -/
def get_predictions_by_agent (db : List PredRec) (limit : ℕ) : List PredRec :=
  db.take limit

/-- Embeds `DynamoDBClient.get_prediction_for_market` for a fixed agent: scan the
(at most) 100 newest records and return the first — hence most recent —
one for the market. -/
def get_prediction_for_market (db : List PredRec) (marketId : String) : Option PredRec :=
  (get_predictions_by_agent db 100).find? (fun p => p.marketId == marketId)

/-- The analyze-and-create tail of `process_agent`'s loop body:
`analyze_market_for_agent` may return None (modelled by the `analysis`
oracle); when it returns a prediction, `create_prediction` stores it with
the cycle's current time. -/
def analyzeAndStore (now : ℤ) (analysis : String → Bool) (db : List PredRec)
    (marketId : String) : List PredRec × Bool :=
  if analysis marketId then ({ marketId := marketId, createdAt := now } :: db, true)
  else (db, false)

/-- One iteration of `process_agent`'s market loop: look up the most recent
prediction for the market; if one exists and is under 3600 seconds old,
continue without analyzing; otherwise analyze and store.  Returns the new
store and whether a prediction was created. -/
def processMarketStep (now : ℤ) (analysis : String → Bool) (db : List PredRec)
    (marketId : String) : List PredRec × Bool :=
  match get_prediction_for_market db marketId with
  | some existing =>
    if now - existing.createdAt < 3600 then (db, false)
    else analyzeAndStore now analysis db marketId
  | none => analyzeAndStore now analysis db marketId

/-- The whole market loop of `process_agent` for one agent and one cycle:
fold the step over the filtered market ids, collecting the ids for which a
prediction was created. -/
def process_agent_markets (now : ℤ) (analysis : String → Bool) (db : List PredRec) :
    List String → List PredRec × List String
  | [] => (db, [])
  | m :: ms =>
    let step := processMarketStep now analysis db m
    let rest := process_agent_markets now analysis step.1 ms
    (rest.1, (if step.2 then [m] else []) ++ rest.2)

/-- An analysis oracle that always returns a prediction. -/
def alwaysAnalyze : String → Bool := fun _ => true

/-- A store holding 100 predictions created at time 1000 for markets
M0..M99 and, beyond the 100-record query window, one prediction for market
m0 created at time 940 (60 seconds old at time 1000, hence fresh). -/
def staleBeyondWindowDb : List PredRec :=
  (List.range 100).map (fun i => { marketId := "M" ++ toString i, createdAt := 1000 })
    ++ [{ marketId := "m0", createdAt := 940 }]

/-- A concrete prediction used to instantiate universally quantified
statements. -/
def examplePrediction : Prediction :=
  { predictionId := "pr1"
    agentId := "a1"
    marketId := "m1"
    predictedProbability := 7/10
    marketProbability := 1/2
    confidence := "high"
    edge := 1/5
    recommendedDirection := "YES" }

/-- A concrete active agent. -/
def exampleAgent : Agent :=
  { agentId := "a1", status := .active, totalTrades := 0, winningTrades := 0, totalPnl := 0 }

/-- A concrete market. -/
def exampleMarket : Market :=
  { id := "m1", type := "precipitation", location := "NYC",
    yesPrice := 3/5, noPrice := 2/5, resolutionTime := 7200 }

/-- A concrete strategy with the source's default configuration. -/
def exampleStrategy : Strategy := {}

/-- A store state with no positions and an empty queue. -/
def exampleState : SystemState := { positions := [], queue := [] }

/-- A concrete execution-queue message. -/
def exampleQueueMessage : QueueMessage :=
  { agentId := "a1", marketId := "m1", direction := "YES",
    size := 2, entryPrice := 1, predictionId := "pr1" }

/-! ### Leaderboard updater (`leaderboard_updater/app.py`) -/

/-- Embeds `sum(1 for p in predictions if p.was_correct is True)` in the
leaderboard updater's per-agent loop. -/
def correctPredictions (predictions : List Prediction) : ℕ :=
  (predictions.filter (fun p => p.wasCorrect == some true)).length

/-- Embeds `sum(1 for p in predictions if p.was_correct is not None)` in the
leaderboard updater's per-agent loop. -/
def outcomeAnnotatedPredictions (predictions : List Prediction) : ℕ :=
  (predictions.filter (fun p => p.wasCorrect != none)).length

/-- A Python numeric value as it flows through the leaderboard updater's
score expression: an `int`, a `float`, or a `decimal.Decimal` (boto3
deserializes DynamoDB numbers — including the `totalTrades` and
`winningTrades` counters — as `Decimal`).  The magnitude is carried as an
exact rational; the constructor records the Python type, which decides
which mixed-type operations raise. -/
inductive PyVal where
  | int (n : ℤ)
  | flt (q : ℚ)
  | dec (q : ℚ)
deriving DecidableEq

/-- The numeric magnitude of a Python value (Python compares `Decimal`
against `float` and `int` exactly, without raising). -/
def PyVal.toRat : PyVal → ℚ
  | .int n => (n : ℚ)
  | .flt q => q
  | .dec q => q

/-- Python multiplication on these types: `int`/`float` mix to `float`,
`int` combines with `Decimal` to `Decimal`, but `Decimal * float` (either
order) raises TypeError, modelled as `none`. -/
def pyMul : PyVal → PyVal → Option PyVal
  | .int a, .int b => some (.int (a * b))
  | .int a, .flt b => some (.flt ((a : ℚ) * b))
  | .flt a, .int b => some (.flt (a * (b : ℚ)))
  | .flt a, .flt b => some (.flt (a * b))
  | .int a, .dec b => some (.dec ((a : ℚ) * b))
  | .dec a, .int b => some (.dec (a * (b : ℚ)))
  | .dec a, .dec b => some (.dec (a * b))
  | .dec _, .flt _ => none
  | .flt _, .dec _ => none

/-- Python addition on these types, with the same TypeError rule for
`Decimal + float`. -/
def pyAdd : PyVal → PyVal → Option PyVal
  | .int a, .int b => some (.int (a + b))
  | .int a, .flt b => some (.flt ((a : ℚ) + b))
  | .flt a, .int b => some (.flt (a + (b : ℚ)))
  | .flt a, .flt b => some (.flt (a + b))
  | .int a, .dec b => some (.dec ((a : ℚ) + b))
  | .dec a, .int b => some (.dec (a + (b : ℚ)))
  | .dec a, .dec b => some (.dec (a + b))
  | .dec _, .flt _ => none
  | .flt _, .dec _ => none

/-- Python's two-argument `min`: the second argument when it is strictly
smaller, else the first (comparisons between `Decimal` and `float` are
allowed and exact, so `min` never raises here). -/
def pyMin (x y : PyVal) : PyVal :=
  if y.toRat < x.toRat then y else x

/-- Python's two-argument `max`: the second argument when it is strictly
larger, else the first. -/
def pyMax (x y : PyVal) : PyVal :=
  if x.toRat < y.toRat then y else x

/-- Per-agent score computation of the leaderboard updater's
`lambda_handler` (`leaderboard_updater/app.py`), with Python's numeric
types tracked.  The counters arrive from the table scan as `Decimal`, so
`win_rate = winning_trades / total_trades` is a `Decimal` when
`total_trades > 0` (and the `int` 0 otherwise); `prediction_accuracy` is a
`float` from `int / int` true division (or the `int` 0); `normalized_pnl`
is a `float` via the explicit `float(total_pnl) / 100`; `normalized_trades`
is `min(Decimal / 100, 1.0)`.  The weighted sum multiplies these by the
float literals 0.4 / 0.3 / 0.2 / 0.1; a `Decimal * float` step raises
TypeError (`none`), which no handler catches. -/
def leaderboard_agent_score (totalTrades winningTrades totalPnl : ℚ)
    (predictions : List Prediction) : Option PyVal :=
  let win_rate : PyVal :=
    if totalTrades > 0 then .dec (winningTrades / totalTrades) else .int 0
  let correct := correctPredictions predictions
  let total_with_outcome := outcomeAnnotatedPredictions predictions
  let prediction_accuracy : PyVal :=
    if total_with_outcome > 0 then .flt ((correct : ℚ) / (total_with_outcome : ℚ))
    else .int 0
  let normalized_pnl : PyVal := .flt (totalPnl / 100)
  let normalized_trades : PyVal := pyMin (.dec (totalTrades / 100)) (.flt 1)
  do
    let t1 ← pyMul win_rate (.flt (4/10))
    let t2 ← pyMul (pyMax (pyMin normalized_pnl (.flt 1)) (.flt (-1))) (.flt (3/10))
    let t3 ← pyMul normalized_trades (.flt (2/10))
    let t4 ← pyMul prediction_accuracy (.flt (1/10))
    let s1 ← pyAdd t1 t2
    let s2 ← pyAdd s1 t3
    pyAdd s2 t4

/-- The composite-score formula with its four factors taken as independent
inputs, for stating how the score moves when one factor varies while the
others are held fixed. -/
def composite_score (winRate totalPnl : ℚ) (totalTrades : ℕ) (accuracy : ℚ) : ℚ :=
  winRate * (4/10)
    + max (min (totalPnl / 100) 1) (-1) * (3/10)
    + min ((totalTrades : ℚ) / 100) 1 * (2/10)
    + accuracy * (1/10)

/-! ### Theorems for claims C1 and C2 -/

/-- C1: for a position resolved by the market resolver with direction and
outcome drawn from the YES/NO domain, the recorded PnL is
`size * (1 - entryPrice)` and the exit price is 1 when the direction equals
the outcome, and the PnL is `-size * entryPrice` and the exit price is 0
otherwise. -/
theorem resolve_position_pnl_exit (p : Position) (outcome : String)
    (hd : p.direction = "YES" ∨ p.direction = "NO")
    (ho : outcome = "YES" ∨ outcome = "NO") :
    (p.direction = outcome →
      (resolve_position p outcome).pnl = some (p.size * (1 - p.entryPrice)) ∧
      (resolve_position p outcome).exitPrice = some 1) ∧
    (p.direction ≠ outcome →
      (resolve_position p outcome).pnl = some (-p.size * p.entryPrice) ∧
      (resolve_position p outcome).exitPrice = some 0) := by
  rcases hd with hd | hd <;> rcases ho with ho | ho <;>
    simp [resolve_position, wonPosition, hd, ho]

/-- Witness for C1: a concrete winning YES position and a concrete losing
NO-direction position on a YES outcome. -/
theorem resolve_position_pnl_exit_witness :
    ((Position.create "p1" "a1" "m1" "YES" 10 (3/10) none).direction = "YES" ∨
      (Position.create "p1" "a1" "m1" "YES" 10 (3/10) none).direction = "NO") ∧
    (("YES" : String) = "YES" ∨ ("YES" : String) = "NO") ∧
    (resolve_position (Position.create "p1" "a1" "m1" "YES" 10 (3/10) none) "YES").pnl
      = some 7 ∧
    (resolve_position (Position.create "p1" "a1" "m1" "YES" 10 (3/10) none) "YES").exitPrice
      = some 1 := by
  refine ⟨Or.inl rfl, Or.inl rfl, ?_⟩
  have h := resolve_position_pnl_exit
    (Position.create "p1" "a1" "m1" "YES" 10 (3/10) none) "YES"
    (Or.inl rfl) (Or.inl rfl)
  have h2 := h.1 rfl
  refine ⟨?_, h2.2⟩
  rw [h2.1]
  norm_num [Position.create]

/-- C2: the position size returned by `calculate_position_size` never
exceeds the strategy's configured `maxPositionSize`, whatever the scaling
rule and prediction. -/
theorem calculate_position_size_le_max (prediction : Prediction) (strategy : Strategy) :
    calculate_position_size prediction strategy ≤ strategy.riskControls.maxPositionSize := by
  unfold calculate_position_size
  exact min_le_right _ _

/-- C4: the claimed weighted score is never computed by the code.  The
counters reach the scoring loop as `Decimal`, so `win_rate * 0.4` is
`Decimal * float` and raises TypeError for every agent with trades (and
the trade-count term raises likewise whenever `win_rate` happens to be the
plain `int` 0); the per-agent score computation therefore returns no value
at the concrete failing input `(2, 1, 50, [])` and on every other input. -/
theorem leaderboard_agent_score_crashes :
    leaderboard_agent_score 2 1 50 [] = none ∧
    ∀ (t w pnl : ℚ) (preds : List Prediction),
      leaderboard_agent_score t w pnl preds = none := by
  have hall : ∀ (t w pnl : ℚ) (preds : List Prediction),
      leaderboard_agent_score t w pnl preds = none := by
    intro t w pnl preds
    unfold leaderboard_agent_score
    by_cases ht : 0 < t
    · simp [ht, pyMul]
    · have hle : t / 100 ≤ 0 :=
        div_nonpos_of_nonpos_of_nonneg (le_of_not_lt ht) (by norm_num)
      simp only [ht, if_false, pyMin, pyMax, PyVal.toRat]
      split_ifs <;> simp [pyMul, pyAdd] <;> linarith
  exact ⟨hall 2 1 50 [], hall⟩

/-- C5: the composite leaderboard score is monotonically non-decreasing in
the win rate when total PnL, trade count and prediction accuracy are held
fixed, and monotonically non-decreasing in the trade count when win rate,
total PnL and prediction accuracy are held fixed. -/
theorem composite_score_monotone :
    (∀ wr1 wr2 pnl : ℚ, ∀ t : ℕ, ∀ acc : ℚ, wr1 ≤ wr2 →
      composite_score wr1 pnl t acc ≤ composite_score wr2 pnl t acc) ∧
    (∀ wr pnl : ℚ, ∀ t1 t2 : ℕ, ∀ acc : ℚ, t1 ≤ t2 →
      composite_score wr pnl t1 acc ≤ composite_score wr pnl t2 acc) := by
  constructor
  · intro wr1 wr2 pnl t acc h
    unfold composite_score
    gcongr
  · intro wr pnl t1 t2 acc h
    unfold composite_score
    gcongr

/-- The if/elif chain of the time-horizon test accepts exactly when the
horizon list is empty or some selected bucket contains the hours value. -/
lemma timeHorizonOk_iff (horizons : List String) (hours : ℚ) :
    timeHorizonOk horizons hours = true ↔
      (horizons = [] ∨
        ("same_day" ∈ horizons ∧ hours ≤ 24) ∨
        ("next_day" ∈ horizons ∧ 24 < hours ∧ hours ≤ 48) ∨
        ("weekly" ∈ horizons ∧ 48 < hours ∧ hours ≤ 168)) := by
  unfold timeHorizonOk
  split_ifs with h1 h2 h3 h4 <;>
    simp_all [List.isEmpty_iff, List.contains_iff_exists_mem_beq, beq_iff_eq]

/-- C6: a market passes `filter_markets_for_strategy` exactly when its type
is allowed (or the type list is empty), its location is allowed (or that
list is empty), and, when the strategy selects time horizons, its hours
until resolution fall into at least one selected bucket: at most 24 for
same_day, in (24, 48] for next_day, in (48, 168] for weekly. -/
theorem filter_markets_for_strategy_iff (now : ℤ) (sel : MarketSelection)
    (markets : List Market) (m : Market) :
    m ∈ filter_markets_for_strategy now markets sel ↔
      m ∈ markets ∧
      (sel.types = [] ∨ m.type ∈ sel.types) ∧
      (sel.locations = [] ∨ m.location ∈ sel.locations) ∧
      (sel.timeHorizon ≠ [] →
        (("same_day" ∈ sel.timeHorizon ∧ hoursUntilResolution now m ≤ 24) ∨
         ("next_day" ∈ sel.timeHorizon ∧ 24 < hoursUntilResolution now m ∧
            hoursUntilResolution now m ≤ 48) ∨
         ("weekly" ∈ sel.timeHorizon ∧ 48 < hoursUntilResolution now m ∧
            hoursUntilResolution now m ≤ 168))) := by
  rw [filter_markets_for_strategy, List.mem_filter]
  refine and_congr_right fun _ => ?_
  rw [marketMatchesStrategy, Bool.and_eq_true, Bool.and_eq_true, timeHorizonOk_iff]
  simp only [Bool.or_eq_true, List.isEmpty_iff, List.contains_iff_exists_mem_beq, beq_iff_eq]
  constructor
  · rintro ⟨⟨ht, hl⟩, hth⟩
    refine ⟨?_, ?_, ?_⟩
    · rcases ht with ht | ⟨a, ha, rfl⟩
      · exact Or.inl ht
      · exact Or.inr ha
    · rcases hl with hl | ⟨a, ha, rfl⟩
      · exact Or.inl hl
      · exact Or.inr ha
    · intro hne
      tauto
  · rintro ⟨ht, hl, hth⟩
    refine ⟨⟨?_, ?_⟩, ?_⟩
    · rcases ht with ht | ht
      · exact Or.inl ht
      · exact Or.inr ⟨m.type, ht, rfl⟩
    · rcases hl with hl | hl
      · exact Or.inl hl
      · exact Or.inr ⟨m.location, hl, rfl⟩
    · by_cases hne : sel.timeHorizon = []
      · exact Or.inl hne
      · exact Or.inr (hth hne)

/-- C10: an entry condition whose field is not one of edge, confidence,
market_probability, forecast_probability — such as the temperature_delta
and precipitation_chance fields the synthesis prompt offers — or whose
operator is not one of gt, lt, gte, lte, eq — such as the prompt's
between operator — evaluates to True, so it never blocks a position. -/
theorem evaluate_entry_condition_pass (condition : EntryCondition) (prediction : Prediction) :
    (condition.field ∉
        (["edge", "confidence", "market_probability", "forecast_probability"] : List String) →
      evaluate_entry_condition condition prediction = some true) ∧
    (condition.operator ∉ (["gt", "lt", "gte", "lte", "eq"] : List String) →
      evaluate_entry_condition condition prediction = some true) := by
  constructor
  · intro h
    simp only [List.mem_cons, List.not_mem_nil, or_false, not_or] at h
    obtain ⟨h1, h2, h3, h4⟩ := h
    simp [evaluate_entry_condition, h1, h2, h3, h4]
  · intro h
    simp only [List.mem_cons, List.not_mem_nil, or_false, not_or] at h
    obtain ⟨g1, g2, g3, g4, g5⟩ := h
    simp only [evaluate_entry_condition]
    split_ifs <;> simp_all

/-- Witness for C10: the prompt-offered field temperature_delta and
operator between both evaluate to a pass on a concrete prediction. -/
theorem evaluate_entry_condition_pass_witness :
    (("temperature_delta" : String) ∉
        (["edge", "confidence", "market_probability", "forecast_probability"] : List String) ∧
      evaluate_entry_condition ⟨"temperature_delta", "gt", .num 5⟩ examplePrediction
        = some true) ∧
    (("between" : String) ∉ (["gt", "lt", "gte", "lte", "eq"] : List String) ∧
      evaluate_entry_condition ⟨"edge", "between", .num 5⟩ examplePrediction
        = some true) :=
  ⟨⟨by decide,
    (evaluate_entry_condition_pass ⟨"temperature_delta", "gt", .num 5⟩ examplePrediction).1
      (by decide)⟩,
   ⟨by decide,
    (evaluate_entry_condition_pass ⟨"edge", "between", .num 5⟩ examplePrediction).2
      (by decide)⟩⟩

/-- Witness for C5: raising the win rate from 0 to 1, and the trade count
from 3 to 7, at concrete values of the other factors. -/
theorem composite_score_monotone_witness :
    ((0 : ℚ) ≤ 1 ∧ composite_score 0 5 3 (1/2) ≤ composite_score 1 5 3 (1/2)) ∧
    (3 ≤ 7 ∧ composite_score (1/2) 5 3 0 ≤ composite_score (1/2) 5 7 0) :=
  ⟨⟨by decide, composite_score_monotone.1 0 1 5 3 (1/2) (by decide)⟩,
   ⟨by decide, composite_score_monotone.2 (1/2) 5 3 7 0 (by decide)⟩⟩

/-- The executor's failure-collecting fold, with any accumulator, appends
exactly the message ids of the raising records. -/
lemma executor_foldl_eq (agents : List Agent) (apiOk : Bool) (npid : String)
    (records : List SQSRecord) (acc : List String) :
    records.foldl
        (fun failures r =>
          if recordRaises agents apiOk npid r then failures ++ [r.messageId]
          else failures)
        acc
      = acc ++ (records.filter (recordRaises agents apiOk npid)).map
          (fun r => r.messageId) := by
  induction records generalizing acc with
  | nil => simp
  | cons r rs ih =>
    by_cases h : recordRaises agents apiOk npid r
    · simp [List.filter_cons, h, ih]
    · simp [List.filter_cons, h, ih]

/-- C9: the executor's `batchItemFailures` list is exactly the message ids
of the records whose processing raised, in batch order: an id is reported
exactly when some record carrying it raised, so one failing message neither
aborts the batch nor drags a successfully processed message into the
failure report. -/
theorem executor_lambda_handler_failures (agents : List Agent) (apiOk : Bool)
    (npid : String) (records : List SQSRecord) :
    executor_lambda_handler agents apiOk npid records =
      (records.filter (recordRaises agents apiOk npid)).map (fun r => r.messageId) ∧
    ∀ mid, mid ∈ executor_lambda_handler agents apiOk npid records ↔
      ∃ r ∈ records, recordRaises agents apiOk npid r = true ∧ r.messageId = mid := by
  have heq := executor_foldl_eq agents apiOk npid records []
  refine ⟨heq, fun mid => ?_⟩
  rw [executor_lambda_handler, heq]
  simp only [List.nil_append, List.mem_map, List.mem_filter]
  constructor
  · rintro ⟨r, ⟨hr, hraise⟩, rfl⟩
    exact ⟨r, hr, hraise, rfl⟩
  · rintro ⟨r, hr, hraise, rfl⟩
    exact ⟨r, ⟨hr, hraise⟩, rfl⟩

/-- C8: the executor registers and persists a position only when the
owning agent is found and active; a missing or non-active agent makes
`process_position_message` return without registering or persisting, and
such a record contributes no entry to the batch failure report. -/
theorem process_position_message_agent_gate (agents : List Agent) (apiOk : Bool)
    (npid mid : String) (msg : QueueMessage) :
    (∀ p, process_position_message agents apiOk npid msg = .executed p →
      ∃ agent, agents.find? (fun a => a.agentId == msg.agentId) = some agent ∧
        agent.status.value = "active") ∧
    (agents.find? (fun a => a.agentId == msg.agentId) = none →
      process_position_message agents apiOk npid msg = .skippedMissingAgent ∧
      recordRaises agents apiOk npid
        { messageId := mid, bodyOk := true, msg := msg } = false) ∧
    (∀ agent, agents.find? (fun a => a.agentId == msg.agentId) = some agent →
      agent.status.value ≠ "active" →
      process_position_message agents apiOk npid msg = .skippedInactiveAgent ∧
      recordRaises agents apiOk npid
        { messageId := mid, bodyOk := true, msg := msg } = false) := by
  refine ⟨?_, ?_, ?_⟩
  · intro p hp
    unfold process_position_message at hp
    cases hfind : agents.find? (fun a => a.agentId == msg.agentId) with
    | none => rw [hfind] at hp; exact absurd hp (by simp)
    | some agent =>
      rw [hfind] at hp
      dsimp only at hp
      refine ⟨agent, rfl, ?_⟩
      by_cases hact : agent.status.value = "active"
      · exact hact
      · rw [if_pos (by simpa using hact)] at hp
        exact absurd hp (by simp)
  · intro hfind
    have hproc : process_position_message agents apiOk npid msg = .skippedMissingAgent := by
      unfold process_position_message
      rw [hfind]
    refine ⟨hproc, ?_⟩
    simp [recordRaises, hproc]
  · intro agent hfind hact
    have hproc : process_position_message agents apiOk npid msg = .skippedInactiveAgent := by
      unfold process_position_message
      rw [hfind]
      dsimp only
      rw [if_pos (by simpa using hact)]
    refine ⟨hproc, ?_⟩
    simp [recordRaises, hproc]

/-- Witness for C8: a concrete executed message under an active agent, a
concrete empty agent store, and a concrete paused agent. -/
theorem process_position_message_agent_gate_witness :
    (∃ agent, ([exampleAgent].find? (fun a => a.agentId == exampleQueueMessage.agentId))
        = some agent ∧ agent.status.value = "active") ∧
    (process_position_message [] true "pos1" exampleQueueMessage = .skippedMissingAgent ∧
      recordRaises [] true "pos1"
        { messageId := "mid1", bodyOk := true, msg := exampleQueueMessage } = false) := by
  constructor
  · exact (process_position_message_agent_gate [exampleAgent] true "pos1" "mid1"
      exampleQueueMessage).1
      ({ Position.create "pos1" "a1" "m1" "YES" 2 1 (some "pr1") with
          status := .opened })
      (by decide)
  · exact (process_position_message_agent_gate [] true "pos1" "mid1"
      exampleQueueMessage).2.1 (by decide)

/-- Counterexample to C7 as stated: queuing a position writes no position
record at all — the store still holds no positions after `queue_position`,
only a queue message — and the record the executor later persists is
already in status open, not pending, so no stored position record is
"created (status pending) when the position is queued". -/
theorem position_lifecycle_counterexample :
    (queue_position exampleState exampleAgent exampleMarket examplePrediction
        exampleStrategy).positions = [] ∧
    (queue_position exampleState exampleAgent exampleMarket examplePrediction
        exampleStrategy).queue.length = 1 ∧
    process_position_message [exampleAgent] true "pos1" exampleQueueMessage =
      .executed
        { positionId := "pos1", agentId := "a1", marketId := "m1", direction := "YES",
          size := 2, entryPrice := 1, status := .opened, predictionId := some "pr1" } ∧
    PositionStatus.opened ≠ PositionStatus.pending := by
  refine ⟨rfl, rfl, by decide, by decide⟩

/-- C7 (amended): queuing only emits a queue message and leaves the
position store untouched; the executor creates the record — `Position.create`
initializes it in status pending — and persists it in status open; the
market resolver moves a resolved position to status closed. -/
theorem position_lifecycle (st : SystemState) (agent : Agent) (market : Market)
    (prediction : Prediction) (strategy : Strategy)
    (pid aid mid dir : String) (size entry : ℚ) (predId : Option String)
    (agents : List Agent) (apiOk : Bool) (npid : String) (msg : QueueMessage)
    (p : Position) (outcome : String) :
    (queue_position st agent market prediction strategy).positions = st.positions ∧
    (Position.create pid aid mid dir size entry predId).status = .pending ∧
    (∀ q, process_position_message agents apiOk npid msg = .executed q →
      q.status = .opened) ∧
    (resolve_position p outcome).status = .closed := by
  refine ⟨rfl, rfl, ?_, rfl⟩
  intro q hq
  unfold process_position_message at hq
  cases hfind : agents.find? (fun a => a.agentId == msg.agentId) with
  | none => rw [hfind] at hq; exact absurd hq (by simp)
  | some agent' =>
    rw [hfind] at hq
    dsimp only at hq
    split_ifs at hq
    all_goals cases hq
    rfl

/-- Witness for C7: the record persisted for a concrete message under an
active agent carries status open. -/
theorem position_lifecycle_witness :
    ({ positionId := "pos1", agentId := "a1", marketId := "m1", direction := "YES",
        size := 2, entryPrice := 1, status := .opened,
        predictionId := some "pr1" } : Position).status = .opened :=
  (position_lifecycle exampleState exampleAgent exampleMarket examplePrediction
      exampleStrategy "p9" "a1" "m1" "YES" 2 1 none [exampleAgent] true "pos1"
      exampleQueueMessage
      (Position.create "p9" "a1" "m1" "YES" 2 1 none) "YES").2.2.1
    { positionId := "pos1", agentId := "a1", marketId := "m1", direction := "YES",
      size := 2, entryPrice := 1, status := .opened, predictionId := some "pr1" }
    (by decide)

/-- In a newest-first record list, `find?` returns the most recent record
for a market: at least as recent as any record for that market in the
list. -/
lemma find?_marketId_createdAt_ge (m : String) :
    ∀ l : List PredRec, l.Pairwise (fun a b => b.createdAt ≤ a.createdAt) →
      ∀ p ∈ l, p.marketId = m →
        ∃ q, l.find? (fun r => r.marketId == m) = some q ∧ p.createdAt ≤ q.createdAt := by
  intro l
  induction l with
  | nil =>
    intro _ p hp
    exact absurd hp (List.not_mem_nil p)
  | cons a l ih =>
    intro hsort p hp hpm
    rw [List.pairwise_cons] at hsort
    by_cases ha : a.marketId = m
    · refine ⟨a, List.find?_cons_of_pos _ (by simp [ha]), ?_⟩
      rcases List.mem_cons.mp hp with rfl | hp'
      · exact le_refl _
      · exact hsort.1 p hp'
    · rcases List.mem_cons.mp hp with rfl | hp'
      · exact absurd hpm ha
      · obtain ⟨q, hq, hle⟩ := ih hsort.2 p hp' hpm
        exact ⟨q, by rw [List.find?_cons_of_neg _ (by simp [ha]), hq], hle⟩

/-- Each loop iteration creates a prediction only for the market id it
processes, so per market id the created ids are no more numerous than the
processed ids. -/
lemma process_agent_markets_count_le (now : ℤ) (analysis : String → Bool) (m : String) :
    ∀ (markets : List String) (db : List PredRec),
      (process_agent_markets now analysis db markets).2.count m ≤ markets.count m := by
  intro markets
  induction markets with
  | nil =>
    intro db
    simp [process_agent_markets]
  | cons a ms ih =>
    intro db
    simp only [process_agent_markets, List.count_append, List.count_cons]
    have hrec := ih (processMarketStep now analysis db a).1
    by_cases ham : a = m
    · subst ham
      by_cases hc : (processMarketStep now analysis db a).2 <;>
        simp [hc, List.count_cons] <;> omega
    · by_cases hc : (processMarketStep now analysis db a).2 <;>
        simp [hc, ham, List.count_cons] <;> omega

/-- Counterexample to C3 as stated: with 100 predictions newer than a
60-second-old (hence fresh) prediction for market m0, the 100-record
lookup window of `get_prediction_for_market` misses the fresh prediction,
and processing m0 computes and stores a new prediction for the pair. -/
theorem prediction_freshness_counterexample :
    ({ marketId := "m0", createdAt := 940 } : PredRec) ∈ staleBeyondWindowDb ∧
    ((1000 : ℤ) - 940 < 3600) ∧
    (processMarketStep 1000 alwaysAnalyze staleBeyondWindowDb "m0").2 = true ∧
    (processMarketStep 1000 alwaysAnalyze staleBeyondWindowDb "m0").1 =
      { marketId := "m0", createdAt := 1000 } :: staleBeyondWindowDb := by
  refine ⟨by decide, by decide, by decide, by decide⟩

/-- C3 (amended): (a) whenever the under-one-hour-old prediction for the
pair lies within the 100 newest records the lookup scans — in particular
whenever the agent has at most 100 stored predictions — the loop step for
that market leaves the store unchanged and creates nothing; (b) provided
the cycle's (filtered) market list mentions each market id at most once,
at most one prediction per (agent, market) pair is created per cycle. -/
theorem prediction_freshness (now : ℤ) (analysis : String → Bool) :
    (∀ (db : List PredRec) (m : String),
      db.Pairwise (fun a b => b.createdAt ≤ a.createdAt) →
      (∃ p ∈ db.take 100, p.marketId = m ∧ now - p.createdAt < 3600) →
      processMarketStep now analysis db m = (db, false)) ∧
    (∀ (db : List PredRec) (markets : List String) (m : String),
      markets.count m ≤ 1 →
      (process_agent_markets now analysis db markets).2.count m ≤ 1) := by
  constructor
  · rintro db m hsort ⟨p, hp, hpm, hfresh⟩
    have hsort' : (db.take 100).Pairwise (fun a b => b.createdAt ≤ a.createdAt) :=
      hsort.sublist (List.take_sublist 100 db)
    obtain ⟨q, hq, hle⟩ := find?_marketId_createdAt_ge m (db.take 100) hsort' p hp hpm
    have hfreshq : now - q.createdAt < 3600 := by omega
    unfold processMarketStep get_prediction_for_market get_predictions_by_agent
    rw [hq]
    dsimp only
    rw [if_pos hfreshq]
  · intro db markets m hcount
    exact le_trans (process_agent_markets_count_le now analysis m markets db) hcount

/-- Witness for C3 (amended): a store holding one 100-second-old prediction
for m0 makes the loop step skip m0, and a duplicate-free two-market cycle
creates at most one prediction for m0. -/
theorem prediction_freshness_witness :
    (processMarketStep 1000 alwaysAnalyze [{ marketId := "m0", createdAt := 900 }] "m0"
        = ([{ marketId := "m0", createdAt := 900 }], false)) ∧
    (process_agent_markets 1000 alwaysAnalyze [] ["m0", "m1"]).2.count "m0" ≤ 1 :=
  ⟨(prediction_freshness 1000 alwaysAnalyze).1 [{ marketId := "m0", createdAt := 900 }] "m0"
      (by simp)
      ⟨{ marketId := "m0", createdAt := 900 }, by decide, rfl, by decide⟩,
   (prediction_freshness 1000 alwaysAnalyze).2 [] ["m0", "m1"] "m0" (by decide)⟩

end Whether
